import Mathlib

/-!
Verification of `wrfhydropy/utilities.py`.

The module shells out to the external `nccmp` tool to compare netcdf
restart files (`compare_nc_nccmp`), matches two lists of files by name
(`compare_ncfiles`), aggregates results per restart category
(`RestartDiffs`), and diffs Fortran namelist files (`diff_namelist`).

The embedding below keeps the source's control flow: the external world
(`subprocess.run`, `Path.is_file`) is a parameter `Env`; the implicit
Python `None` returned by `compare_nc_nccmp` on exit status 0 is
`Option.none`; the `IndexError` raised by `reference_files[0]` on an
empty reference list is an `Except.error`.
-/

namespace Wrfhydropy

/-- A filesystem path, modelled as a parent-directory string and a file
name: the source uses `pathlib.Path` only through `.parent`, `.name`,
`.joinpath` and `str(...)`. -/
structure NcPath where
  parent : String
  name : String
deriving DecidableEq, Repr

/-- The string form of a path, `str(path)`. -/
def pathStr (p : NcPath) : String := p.parent ++ "/" ++ p.name

/-- The record produced by `subprocess.run`: exit status plus captured
standard output and standard error. -/
structure ProcResult where
  returncode : Int
  stdout : String
  stderr : String
deriving DecidableEq, Repr

/-- The external world the module talks to: `run` executes one command
line synchronously (`subprocess.run`), `isFile` answers `Path.is_file()`. -/
structure Env where
  run : List String → ProcResult
  isFile : NcPath → Bool

/-- A parsed whitespace-delimited table with a header row, the shape that
`pandas.read_table(..., delim_whitespace=True, header=0)` produces. -/
structure Table where
  header : List String
  rows : List (List String)
deriving DecidableEq, Repr

/-- A non-`None` result of `compare_nc_nccmp`: either the parsed table
(the pandas dataframe) or the raw `subprocess` record. -/
inductive NccmpResult where
  | table (t : Table)
  | rawProc (proc : ProcResult)
deriving DecidableEq, Repr

/-- One comparison outcome; `none` is Python `None`, which
`compare_nc_nccmp` returns implicitly when the exit status is zero. -/
abbrev Outcome := Option NccmpResult

/-- Split a character list at every occurrence of `sep`; the separators
are dropped and adjacent separators yield empty pieces. -/
def splitOnChar (sep : Char) : List Char → List (List Char)
  | [] => [[]]
  | c :: rest =>
    let r := splitOnChar sep rest
    if c = sep then [] :: r
    else
      match r with
      | l :: ls => (c :: l) :: ls
      | [] => [[c]]

/-- Split a line on blanks and tabs, dropping empty fields, as
`delim_whitespace=True` tokenizes. -/
def tokenizeWs (line : List Char) : List String :=
  ((((splitOnChar ' ' line).flatMap (splitOnChar '\t')).filter
    fun cs => cs ≠ []).map fun cs => String.mk cs)

/-- Modelled from the spec: `pandas.read_table(output, delim_whitespace=True,
header=0)`; pandas itself is not part of this repository. The first
non-blank line of the captured output is the header row and the remaining
non-blank lines are data rows. Parsing fails (pandas raises) when there is
no data at all, or when a data row is wider than the header row plus one
implicit index column. -/
def parseTable (stdout : String) : Option Table :=
  match ((splitOnChar '\n' stdout.data).map tokenizeWs).filter (fun l => l ≠ []) with
  | [] => none
  | header :: rows =>
    if rows.all fun r => r.length ≤ header.length + 1 then some ⟨header, rows⟩
    else none

/-- The default `nccmp_options` value shared by `compare_nc_nccmp`,
`compare_ncfiles` and `RestartDiffs`. -/
def defaultNccmpOptions : List String := ["--data", "--metadata", "--force", "--quiet"]

/-- The default `exclude_vars` value of `compare_ncfiles` and
`RestartDiffs` (the default of `compare_nc_nccmp` itself is `None`). -/
def defaultExcludeVars : List String :=
  ["ACMELT", "ACSNOW", "SFCRUNOFF", "UDRUNOFF", "ACCPRCP",
   "ACCECAN", "ACCEDIR", "ACCETRAN", "qstrmvolrt"]

/-- The command line `compare_nc_nccmp` builds: start from `['nccmp']`,
append each option, append `'-S'`, when `exclude_vars` is given append the
single token `'-x ' + ','.join(exclude_vars)`, then append the two paths. -/
def nccmpCommand (candidate_nc reference_nc : String)
    (nccmp_options : List String) (exclude_vars : Option (List String)) :
    List String :=
  let command_list : List String := ["nccmp"]
  let command_list := nccmp_options.foldl (fun acc item => acc ++ [item]) command_list
  let command_list := command_list ++ ["-S"]
  let command_list :=
    match exclude_vars with
    | some vs => command_list ++ ["-x " ++ String.intercalate "," vs]
    | none => command_list
  command_list ++ [candidate_nc, reference_nc]

/-- The warning text emitted when the nccmp output cannot be read into a
dataframe (two adjacent Python string literals concatenate). -/
def parseFailWarning : String :=
  "Probleming reading nccmp output to pandas dataframe,returning as subprocess object"

/-- What one `compare_nc_nccmp` call produces: the returned value, the
warnings it emitted, and the one command line it executed. -/
structure CompareNcRet where
  outcome : Outcome
  warnings : List String
  command : List String
deriving DecidableEq, Repr

/-- `compare_nc_nccmp` with every argument explicit. Builds the command,
runs it, and normalizes: exit status 0 falls through to Python `None`;
otherwise stdout is parsed as a whitespace-delimited table with a header
row, degrading to the raw process record plus a warning when parsing
fails. -/
def compare_nc_nccmp_with (env : Env) (candidate_nc reference_nc : String)
    (nccmp_options : List String) (exclude_vars : Option (List String)) :
    CompareNcRet :=
  let command_list := nccmpCommand candidate_nc reference_nc nccmp_options exclude_vars
  let proc := env.run command_list
  if proc.returncode ≠ 0 then
    match parseTable proc.stdout with
    | some t => ⟨some (.table t), [], command_list⟩
    | none => ⟨some (.rawProc proc), [parseFailWarning], command_list⟩
  else
    ⟨none, [], command_list⟩

/-- `compare_nc_nccmp` with its Python default arguments:
`nccmp_options=['--data','--metadata','--force','--quiet']`,
`exclude_vars=None`. -/
def compare_nc_nccmp (env : Env) (candidate_nc reference_nc : String) :
    CompareNcRet :=
  compare_nc_nccmp_with env candidate_nc reference_nc defaultNccmpOptions none

/-- What one `compare_ncfiles` call produces: the `output_list` it
returns, the warnings emitted, and the command lines executed. -/
structure CompareFilesRet where
  output_list : List Outcome
  warnings : List String
  commands : List (List String)
deriving DecidableEq, Repr

/-- The `for file_candidate in candidate_files` loop of `compare_ncfiles`:
look up `ref_dir/candidate.name`; when it is a file, run the comparison
and append its outcome, otherwise warn and append nothing. -/
def compare_files_loop (env : Env) (nccmp_options : List String)
    (exclude_vars : Option (List String)) (ref_dir : String) :
    List NcPath → CompareFilesRet
  | [] => ⟨[], [], []⟩
  | file_candidate :: rest =>
    let file_reference : NcPath := ⟨ref_dir, file_candidate.name⟩
    let r := compare_files_loop env nccmp_options exclude_vars ref_dir rest
    if env.isFile file_reference then
      let nccmp_out := compare_nc_nccmp_with env (pathStr file_candidate)
        (pathStr file_reference) nccmp_options exclude_vars
      ⟨nccmp_out.outcome :: r.output_list,
       nccmp_out.warnings ++ r.warnings,
       nccmp_out.command :: r.commands⟩
    else
      ⟨r.output_list,
       (pathStr file_candidate ++ "not found in " ++ ref_dir) :: r.warnings,
       r.commands⟩

/-- `compare_ncfiles` with every argument explicit: derive `ref_dir` from
`reference_files[0].parent` (an `IndexError` when the reference list is
empty), then run the matching loop over the candidate files. -/
def compare_ncfiles_with (env : Env)
    (candidate_files reference_files : List NcPath)
    (nccmp_options : List String) (exclude_vars : Option (List String)) :
    Except String CompareFilesRet :=
  match reference_files with
  | [] => .error "list index out of range"
  | r0 :: _ =>
    .ok (compare_files_loop env nccmp_options exclude_vars r0.parent candidate_files)

/-- `compare_ncfiles` with its Python default arguments. -/
def compare_ncfiles (env : Env)
    (candidate_files reference_files : List NcPath) :
    Except String CompareFilesRet :=
  compare_ncfiles_with env candidate_files reference_files
    defaultNccmpOptions (some defaultExcludeVars)

/-- `sum(1 for _ in filter(None.__ne__, outcomes))`: the number of entries
of the outcome list that are not Python `None`. -/
def countNonNone (l : List Outcome) : Nat :=
  (l.filter fun x => x.isSome).length

/-- A run object, exposing the three restart-file collections that
`RestartDiffs.__init__` reads (the collaborator contract of `WrfHydroRun`). -/
structure WrfHydroRun where
  restart_hydro : List NcPath
  restart_lsm : List NcPath
  restart_nudging : List NcPath
deriving DecidableEq, Repr

/-- The state of a `RestartDiffs` object after `__init__`, plus the
warnings emitted and the command lines executed while building it. -/
structure RestartDiffs where
  diff_counts : List (String × Nat)
  hydro : Option (List Outcome)
  lsm : Option (List Outcome)
  nudging : Option (List Outcome)
  warnings : List String
  commands : List (List String)
deriving DecidableEq, Repr

/-- The freshly initialized attributes of `RestartDiffs`:
`diff_counts = {}` and the three category fields `None`. -/
def initDiffs : RestartDiffs := ⟨[], none, none, none, [], []⟩

/-- The warning emitted when the hydro category is skipped. -/
def hydroEmptyWarning : String :=
  "length of candidate_sim.restart_hydro or reference_sim.restart_hydro is 0"

/-- The warning emitted when the lsm category is skipped. -/
def lsmEmptyWarning : String :=
  "length of candidate_sim.restart_lsm or reference_sim.restart_lsm is 0"

/-- The warning emitted when the nudging category is skipped. -/
def nudgingEmptyWarning : String :=
  "length of candidate_sim.restart_nudging or reference_sim.restart_nudging is 0"

/-- One of the three `if len(...) != 0 and len(...) != 0` blocks of
`RestartDiffs.__init__`: when both collections are non-empty, call
`compare_ncfiles`, store its list through `setField`, and record
`diff_counts[cname]`; otherwise warn that the category is empty.
An exception from `compare_ncfiles` propagates. -/
def categoryStep (env : Env) (nccmp_options : List String)
    (exclude_vars : Option (List String)) (cname emptyMsg : String)
    (cfiles rfiles : List NcPath)
    (setField : List Outcome → RestartDiffs → RestartDiffs)
    (d : RestartDiffs) : Except String RestartDiffs :=
  if cfiles.length ≠ 0 ∧ rfiles.length ≠ 0 then
    match compare_ncfiles_with env cfiles rfiles nccmp_options exclude_vars with
    | .error e => .error e
    | .ok res =>
      .ok { setField res.output_list d with
            diff_counts := d.diff_counts ++ [(cname, countNonNone res.output_list)],
            warnings := d.warnings ++ res.warnings,
            commands := d.commands ++ res.commands }
  else
    .ok { d with warnings := d.warnings ++ [emptyMsg] }

/-- `RestartDiffs.__init__` with every argument explicit: process the
hydro, lsm and nudging categories in that order, starting from the
freshly initialized attributes. -/
def mkRestartDiffs_with (env : Env) (candidate_run reference_run : WrfHydroRun)
    (nccmp_options : List String) (exclude_vars : Option (List String)) :
    Except String RestartDiffs :=
  match categoryStep env nccmp_options exclude_vars "hydro" hydroEmptyWarning
      candidate_run.restart_hydro reference_run.restart_hydro
      (fun o d => { d with hydro := some o }) initDiffs with
  | .error e => .error e
  | .ok d1 =>
    match categoryStep env nccmp_options exclude_vars "lsm" lsmEmptyWarning
        candidate_run.restart_lsm reference_run.restart_lsm
        (fun o d => { d with lsm := some o }) d1 with
    | .error e => .error e
    | .ok d2 =>
      categoryStep env nccmp_options exclude_vars "nudging" nudgingEmptyWarning
        candidate_run.restart_nudging reference_run.restart_nudging
        (fun o d => { d with nudging := some o }) d2

/-- `RestartDiffs` with its Python default arguments. -/
def mkRestartDiffs (env : Env) (candidate_run reference_run : WrfHydroRun) :
    Except String RestartDiffs :=
  mkRestartDiffs_with env candidate_run reference_run
    defaultNccmpOptions (some defaultExcludeVars)

/-- The per-category output of `RestartDiffs.__init__` as an explicit
value: `some` the `compare_ncfiles` result when both collections are
non-empty, `none` when the category is skipped. -/
def categoryOutput (env : Env) (nccmp_options : List String)
    (exclude_vars : Option (List String)) (cfiles rfiles : List NcPath) :
    Option CompareFilesRet :=
  match cfiles, rfiles with
  | _ :: _, r0 :: _ =>
    some (compare_files_loop env nccmp_options exclude_vars r0.parent cfiles)
  | _, _ => none

/-- The `diff_counts` entries a category contributes. -/
def countEntry (cname : String) : Option CompareFilesRet → List (String × Nat)
  | some res => [(cname, countNonNone res.output_list)]
  | none => []

/-- The warnings a category contributes. -/
def warnEntry (emptyMsg : String) : Option CompareFilesRet → List String
  | some res => res.warnings
  | none => [emptyMsg]

/-- The command lines a category contributes. -/
def cmdEntry : Option CompareFilesRet → List (List String)
  | some res => res.commands
  | none => []

/-- The final `RestartDiffs` state written out field by field, used to
characterize `mkRestartDiffs_with`. -/
def restartDiffsSpec (env : Env) (candidate_run reference_run : WrfHydroRun)
    (nccmp_options : List String) (exclude_vars : Option (List String)) :
    RestartDiffs :=
  let h := categoryOutput env nccmp_options exclude_vars
    candidate_run.restart_hydro reference_run.restart_hydro
  let l := categoryOutput env nccmp_options exclude_vars
    candidate_run.restart_lsm reference_run.restart_lsm
  let n := categoryOutput env nccmp_options exclude_vars
    candidate_run.restart_nudging reference_run.restart_nudging
  { diff_counts := countEntry "hydro" h ++ countEntry "lsm" l ++ countEntry "nudging" n,
    hydro := h.map CompareFilesRet.output_list,
    lsm := l.map CompareFilesRet.output_list,
    nudging := n.map CompareFilesRet.output_list,
    warnings := warnEntry hydroEmptyWarning h ++ warnEntry lsmEmptyWarning l ++
      warnEntry nudgingEmptyWarning n,
    commands := cmdEntry h ++ cmdEntry l ++ cmdEntry n }

/-- A value occurring in a namelist `name = value` pair. -/
inductive NmlValue where
  | int (n : Int)
  | real (r : String)
  | logical (b : Bool)
  | str (s : String)
deriving DecidableEq, Repr

/-- The body of one `&group ... /` block: its `name = value` pairs in
written order. -/
abbrev Block := List (String × NmlValue)

/-- A namelist file: the sequence of named blocks as written. -/
abbrev NamelistFile := List (String × Block)

/-- Modelled from the spec: `f90nml.read` (the f90nml library is not part
of this repository) parses a namelist file into a nested mapping; the
blocks of each group name are collected, in first-occurrence order of the
names, into the ordered list (cogroup) of their bodies in file order. -/
def readNamelist (file : NamelistFile) : List (String × List Block) :=
  file.foldl
    (fun acc gb =>
      if acc.any fun p => p.1 == gb.1 then
        acc.map fun p => if p.1 == gb.1 then (p.1, p.2 ++ [gb.2]) else p
      else acc ++ [(gb.1, [gb.2])])
    []

/-- The nested mapping of differences between two parsed namelists, in
the shape `deepdiff` reports: group names present only in the first file,
only in the second, and present in both with differing contents. -/
structure NmlDiff where
  dictionary_item_removed : List String
  dictionary_item_added : List String
  values_changed : List String
deriving DecidableEq, Repr

/-- Modelled from the spec: `deepdiff.DeepDiff(nml1, nml2, ignore_order=True)`
(the deepdiff library is not part of this repository). With `ignore_order`
the per-group block collections are compared as unordered collections: a
group counts as changed exactly when its two block lists are not
permutations of one another. -/
def deepDiffIgnoreOrder (n1 n2 : List (String × List Block)) : NmlDiff where
  dictionary_item_removed := (n1.filter fun p => (n2.lookup p.1).isNone).map Prod.fst
  dictionary_item_added := (n2.filter fun p => (n1.lookup p.1).isNone).map Prod.fst
  values_changed :=
    (n1.filter fun p =>
      match n2.lookup p.1 with
      | some bs2 => decide ¬ List.Perm p.2 bs2
      | none => false).map Prod.fst

/-- `diff_namelist`: read both namelist files and diff the resulting
nested structures with order ignored; the result is converted to a plain
mapping (`dict(differences)`) before being returned. The `**kwargs`
passthrough to `DeepDiff` is dropped here (it is opaque tuning). -/
def diff_namelist (namelist1 namelist2 : NamelistFile) : NmlDiff :=
  deepDiffIgnoreOrder (readNamelist namelist1) (readNamelist namelist2)

/-- Two parsed namelists that differ only by the order of the blocks
inside each group: same group names in the same positions, and per-group
block lists that are permutations of one another. This is what reordering
repeated blocks inside a namelist file does to its parse. -/
def GroupwisePerm (n n' : List (String × List Block)) : Prop :=
  List.Forall₂ (fun p q => p.1 = q.1 ∧ List.Perm p.2 q.2) n n'

/-- A test environment whose external process always reports equality
(exit status 0) and whose filesystem contains every path. -/
def envZ : Env := ⟨fun _ => ⟨0, "", ""⟩, fun _ => true⟩

/-- A test environment whose external process always exits with status 1
and empty output, and whose filesystem contains every path. -/
def envO : Env := ⟨fun _ => ⟨1, "", ""⟩, fun _ => true⟩

/-- A test path. -/
def pW : NcPath := ⟨"/cand", "a.nc"⟩

/-- A test run whose hydro collection holds one file and whose other
collections are empty. -/
def runW : WrfHydroRun := ⟨[pW], [], []⟩

/-- A test run with all three collections empty. -/
def runE : WrfHydroRun := ⟨[], [], []⟩

/-- A test namelist block. -/
def blockW1 : Block := [("a", NmlValue.int 1)]

/-- Another test namelist block. -/
def blockW2 : Block := [("a", NmlValue.int 2)]

/-- A test namelist file with a repeated group `g`. -/
def nmlW1 : NamelistFile := [("g", blockW1), ("g", blockW2)]

/-- The test namelist file `nmlW1` with its two `g` blocks reordered. -/
def nmlW1r : NamelistFile := [("g", blockW2), ("g", blockW1)]

/-- A second test namelist file. -/
def nmlW2 : NamelistFile := [("g", blockW1)]

lemma categoryStep_eq (env : Env) (nccmp_options : List String)
    (exclude_vars : Option (List String)) (cname emptyMsg : String)
    (cfiles rfiles : List NcPath)
    (setField : List Outcome → RestartDiffs → RestartDiffs)
    (d : RestartDiffs) :
    categoryStep env nccmp_options exclude_vars cname emptyMsg cfiles rfiles
        setField d =
      .ok (match categoryOutput env nccmp_options exclude_vars cfiles rfiles with
        | some res =>
          { setField res.output_list d with
            diff_counts := d.diff_counts ++ [(cname, countNonNone res.output_list)],
            warnings := d.warnings ++ res.warnings,
            commands := d.commands ++ res.commands }
        | none => { d with warnings := d.warnings ++ [emptyMsg] }) := by
  rcases cfiles with _ | ⟨c0, cr⟩ <;> rcases rfiles with _ | ⟨r0, rr⟩ <;>
    simp [categoryStep, categoryOutput, compare_ncfiles_with]

lemma mkRestartDiffs_with_eq (env : Env)
    (candidate_run reference_run : WrfHydroRun)
    (nccmp_options : List String) (exclude_vars : Option (List String)) :
    mkRestartDiffs_with env candidate_run reference_run nccmp_options exclude_vars =
      .ok (restartDiffsSpec env candidate_run reference_run nccmp_options exclude_vars) := by
  rcases hh : categoryOutput env nccmp_options exclude_vars
      candidate_run.restart_hydro reference_run.restart_hydro with _ | hres <;>
    rcases hl : categoryOutput env nccmp_options exclude_vars
        candidate_run.restart_lsm reference_run.restart_lsm with _ | lres <;>
      rcases hn : categoryOutput env nccmp_options exclude_vars
          candidate_run.restart_nudging reference_run.restart_nudging with _ | nres <;>
        simp [mkRestartDiffs_with, restartDiffsSpec, categoryStep_eq, hh, hl, hn,
          initDiffs, countEntry, warnEntry, cmdEntry]

lemma GroupwisePerm.lookup_none {n n' : List (String × List Block)}
    (h : GroupwisePerm n n') (g : String) :
    (n.lookup g).isNone = (n'.lookup g).isNone := by
  induction n generalizing n' with
  | nil => cases h; rfl
  | cons a t ih =>
    cases h with
    | cons hab htail =>
      rename_i b t'
      obtain ⟨a1, a2⟩ := a
      obtain ⟨b1, b2⟩ := b
      obtain ⟨hk, hv⟩ := hab
      simp only at hk
      subst hk
      by_cases hg : g = a1
      · simp [List.lookup, hg]
      · simp only [List.lookup, beq_false_of_ne hg]
        exact ih htail

lemma GroupwisePerm.lookup_perm {n n' : List (String × List Block)}
    (h : GroupwisePerm n n') (g : String) {bs : List Block}
    (hbs : n.lookup g = some bs) :
    ∃ bs', n'.lookup g = some bs' ∧ List.Perm bs bs' := by
  induction n generalizing n' with
  | nil => cases h; simp [List.lookup] at hbs
  | cons a t ih =>
    cases h with
    | cons hab htail =>
      rename_i b t'
      obtain ⟨a1, a2⟩ := a
      obtain ⟨b1, b2⟩ := b
      obtain ⟨hk, hv⟩ := hab
      simp only at hk hv
      subst hk
      by_cases hg : g = a1
      · refine ⟨b2, by simp [List.lookup, hg], ?_⟩
        have hval : a2 = bs := by
          simpa [List.lookup, hg] using hbs
        exact hval ▸ hv
      · simp only [List.lookup, beq_false_of_ne hg] at hbs ⊢
        exact ih htail hbs

lemma filter_map_fst_congr {n n' : List (String × List Block)}
    (h : GroupwisePerm n n') (p p' : (String × List Block) → Bool)
    (hp : ∀ a b, a.1 = b.1 → List.Perm a.2 b.2 → p a = p' b) :
    (n.filter p).map Prod.fst = (n'.filter p').map Prod.fst := by
  induction n generalizing n' with
  | nil => cases h; rfl
  | cons a t ih =>
    cases h with
    | cons hab htail =>
      rename_i b t'
      have hpa : p' b = p a := (hp a b hab.1 hab.2).symm
      rcases hpb : p a with _ | _ <;>
        simp [List.filter_cons, hpb, hpa, ih htail, hab.1]

lemma foldl_append_eq (l init : List String) :
    l.foldl (fun acc item => acc ++ [item]) init = init ++ l := by
  induction l generalizing init with
  | nil => simp
  | cons x xs ih => simp [List.foldl_cons, ih]

lemma nccmpCommand_eq (candidate_nc reference_nc : String)
    (nccmp_options : List String) (exclude_vars : Option (List String)) :
    nccmpCommand candidate_nc reference_nc nccmp_options exclude_vars =
      ["nccmp"] ++ nccmp_options ++ ["-S"] ++
        (match exclude_vars with
         | some vs => ["-x " ++ String.intercalate "," vs]
         | none => []) ++ [candidate_nc, reference_nc] := by
  unfold nccmpCommand
  rcases exclude_vars with _ | vs <;> simp [foldl_append_eq]

lemma compare_nc_nccmp_with_command (env : Env) (a b : String)
    (opts : List String) (excl : Option (List String)) :
    (compare_nc_nccmp_with env a b opts excl).command = nccmpCommand a b opts excl := by
  unfold compare_nc_nccmp_with
  by_cases h : (env.run (nccmpCommand a b opts excl)).returncode ≠ 0
  · rw [if_pos h]
    cases parseTable (env.run (nccmpCommand a b opts excl)).stdout <;> rfl
  · rw [if_neg h]

lemma commands_mem_nccmpCommand {env : Env} {opts : List String}
    {excl : Option (List String)} {dir : String} :
    ∀ {cand : List NcPath} {cmd : List String},
      cmd ∈ (compare_files_loop env opts excl dir cand).commands →
      ∃ a b, cmd = nccmpCommand a b opts excl := by
  intro cand
  induction cand with
  | nil => intro cmd h; simp [compare_files_loop] at h
  | cons c rest ih =>
    intro cmd h
    by_cases hf : env.isFile ⟨dir, c.name⟩ <;>
      simp only [compare_files_loop, hf, if_true, if_false, ite_true, ite_false,
        List.mem_cons] at h
    · rcases h with h | h
      · exact ⟨pathStr c, pathStr ⟨dir, c.name⟩,
          by rw [h, compare_nc_nccmp_with_command]⟩
      · exact ih h
    · exact ih h

lemma cmdEntry_mem {env : Env} {opts : List String}
    {excl : Option (List String)} {cf rf : List NcPath} {cmd : List String}
    (h : cmd ∈ cmdEntry (categoryOutput env opts excl cf rf)) :
    ∃ a b, cmd = nccmpCommand a b opts excl := by
  rcases cf with _ | ⟨c0, ct⟩ <;> rcases rf with _ | ⟨r0, rt⟩ <;>
    simp [categoryOutput, cmdEntry] at h
  exact commands_mem_nccmpCommand h

lemma deepDiff_congr {n1 n1' n2 n2' : List (String × List Block)}
    (h1 : GroupwisePerm n1 n1') (h2 : GroupwisePerm n2 n2') :
    deepDiffIgnoreOrder n1 n2 = deepDiffIgnoreOrder n1' n2' := by
  unfold deepDiffIgnoreOrder
  simp only [NmlDiff.mk.injEq]
  refine ⟨?_, ?_, ?_⟩
  · refine filter_map_fst_congr h1 _ _ fun a b ha _ => ?_
    rw [ha, GroupwisePerm.lookup_none h2]
  · refine filter_map_fst_congr h2 _ _ fun a b ha _ => ?_
    rw [ha, GroupwisePerm.lookup_none h1]
  · refine filter_map_fst_congr h1 _ _ fun a b ha hperm => ?_
    rw [ha]
    rcases hl : n2.lookup b.1 with _ | bs2
    · have : (n2'.lookup b.1).isNone = true := by
        rw [← GroupwisePerm.lookup_none h2, hl]; rfl
      rcases hl' : n2'.lookup b.1 with _ | bs2'
      · rfl
      · rw [hl'] at this; simp at this
    · obtain ⟨bs2', hl', hbsp⟩ := GroupwisePerm.lookup_perm h2 b.1 hl
      rw [hl']
      simp only [decide_eq_decide]
      constructor
      · intro hne hcontra
        exact hne ((hperm.trans hcontra).trans hbsp.symm)
      · intro hne hcontra
        exact hne ((hperm.symm.trans hcontra).trans hbsp)

lemma compare_files_loop_eq (env : Env) (opts : List String)
    (excl : Option (List String)) (dir : String) (cand : List NcPath) :
    compare_files_loop env opts excl dir cand =
      ⟨cand.filterMap fun fc =>
          if env.isFile ⟨dir, fc.name⟩ then
            some (compare_nc_nccmp_with env (pathStr fc)
              (pathStr ⟨dir, fc.name⟩) opts excl).outcome
          else none,
        cand.flatMap fun fc =>
          if env.isFile ⟨dir, fc.name⟩ then
            (compare_nc_nccmp_with env (pathStr fc)
              (pathStr ⟨dir, fc.name⟩) opts excl).warnings
          else [pathStr fc ++ "not found in " ++ dir],
        cand.filterMap fun fc =>
          if env.isFile ⟨dir, fc.name⟩ then
            some (compare_nc_nccmp_with env (pathStr fc)
              (pathStr ⟨dir, fc.name⟩) opts excl).command
          else none⟩ := by
  induction cand with
  | nil => rfl
  | cons c t ih =>
    by_cases hf : env.isFile ⟨dir, c.name⟩ <;>
      simp [compare_files_loop, hf, ih, List.filterMap_cons, List.flatMap_cons]

/-- Claim C7: the external command is built as the tool name, the base
options in order, the case-sensitivity flag `-S`, then — only when
`exclude_vars` is given — an exclusion token of `-x` followed by the
comma-joined excluded variable names, and finally the candidate path and
the reference path. -/
theorem C7_command_form (candidate_nc reference_nc : String)
    (nccmp_options : List String) (exclude_vars : Option (List String)) :
    nccmpCommand candidate_nc reference_nc nccmp_options exclude_vars =
      ["nccmp"] ++ nccmp_options ++ ["-S"] ++
        (match exclude_vars with
         | some vs => ["-x " ++ String.intercalate "," vs]
         | none => []) ++ [candidate_nc, reference_nc] :=
  nccmpCommand_eq candidate_nc reference_nc nccmp_options exclude_vars

/-- Claim C5: when the external process exits with status zero,
`compare_nc_nccmp` returns the "no difference" outcome (Python `None`),
attempts no output parsing (no parse warning is emitted), and such an
outcome contributes nothing to a category's diff count. -/
theorem C5_exit_zero_no_difference (env : Env) (candidate_nc reference_nc : String)
    (opts : List String) (excl : Option (List String))
    (h : (env.run (nccmpCommand candidate_nc reference_nc opts excl)).returncode = 0) :
    (compare_nc_nccmp_with env candidate_nc reference_nc opts excl).outcome = none ∧
    (compare_nc_nccmp_with env candidate_nc reference_nc opts excl).warnings = [] ∧
    ∀ l : List Outcome,
      countNonNone ((compare_nc_nccmp_with env candidate_nc reference_nc opts excl).outcome :: l) =
        countNonNone l := by
  have hne : ¬ (env.run (nccmpCommand candidate_nc reference_nc opts excl)).returncode ≠ 0 := by
    simp [h]
  unfold compare_nc_nccmp_with
  rw [if_neg hne]
  exact ⟨rfl, rfl, fun l => by simp [countNonNone, List.filter_cons]⟩

/-- A concrete instance of C5: under an environment whose comparator
always exits 0, the outcome is `none` and it does not count. -/
theorem C5_witness :
    (compare_nc_nccmp_with envZ "a.nc" "b.nc" defaultNccmpOptions none).outcome = none ∧
    countNonNone [(compare_nc_nccmp_with envZ "a.nc" "b.nc" defaultNccmpOptions none).outcome] = 0 :=
  ⟨(C5_exit_zero_no_difference envZ "a.nc" "b.nc" defaultNccmpOptions none rfl).1,
   ((C5_exit_zero_no_difference envZ "a.nc" "b.nc" defaultNccmpOptions none rfl).2.2 []).trans rfl⟩

/-- Claim C6: when the external process exits non-zero and its standard
output cannot be parsed as a whitespace-delimited table with a header row,
`compare_nc_nccmp` emits the parse warning and returns the raw process
record instead of raising. -/
theorem C6_parse_failure_degrades (env : Env) (candidate_nc reference_nc : String)
    (opts : List String) (excl : Option (List String))
    (h1 : (env.run (nccmpCommand candidate_nc reference_nc opts excl)).returncode ≠ 0)
    (h2 : parseTable (env.run (nccmpCommand candidate_nc reference_nc opts excl)).stdout = none) :
    compare_nc_nccmp_with env candidate_nc reference_nc opts excl =
      ⟨some (.rawProc (env.run (nccmpCommand candidate_nc reference_nc opts excl))),
       [parseFailWarning], nccmpCommand candidate_nc reference_nc opts excl⟩ := by
  unfold compare_nc_nccmp_with
  rw [if_pos h1, h2]

/-- A concrete instance of C6: a comparator exiting 1 with empty output
yields the raw process record and the parse warning. -/
theorem C6_witness :
    compare_nc_nccmp_with envO "a.nc" "b.nc" defaultNccmpOptions none =
      ⟨some (.rawProc ⟨1, "", ""⟩), [parseFailWarning],
       nccmpCommand "a.nc" "b.nc" defaultNccmpOptions none⟩ :=
  C6_parse_failure_degrades envO "a.nc" "b.nc" defaultNccmpOptions none
    (by decide) (by decide)

/-- Claim C2 as stated is false: with an empty reference file list,
`compare_ncfiles` does not return an empty result — dereferencing
`reference_files[0]` raises an `IndexError` instead. -/
theorem C2_counterexample :
    compare_ncfiles envZ [pW] [] = Except.error "list index out of range" := rfl

/-- Claim C2, amended: with an empty candidate list and a non-empty
reference list, `compare_ncfiles` returns an empty result list without
invoking the external comparator and without raising; with an empty
reference list, it raises an `IndexError` instead. -/
theorem C2_amended_empty_behavior (env : Env) (cand : List NcPath)
    (r0 : NcPath) (rest : List NcPath) (opts : List String)
    (excl : Option (List String)) :
    compare_ncfiles_with env [] (r0 :: rest) opts excl = Except.ok ⟨[], [], []⟩ ∧
    compare_ncfiles_with env cand [] opts excl =
      Except.error "list index out of range" :=
  ⟨rfl, rfl⟩

/-- Claim C3: for a non-empty reference list, `compare_ncfiles` derives
the single reference directory from the first reference file's parent and,
for each candidate in input order, looks up `ref_dir/candidate.name`:
a file hit invokes the comparator and appends its outcome, a miss emits a
`not found` warning and appends nothing, so the result list is never
longer than the candidate list. -/
theorem C3_match_by_name (env : Env) (cand : List NcPath) (r0 : NcPath)
    (rest : List NcPath) (opts : List String) (excl : Option (List String)) :
    compare_ncfiles_with env cand (r0 :: rest) opts excl =
      Except.ok
        ⟨cand.filterMap fun fc =>
            if env.isFile ⟨r0.parent, fc.name⟩ then
              some (compare_nc_nccmp_with env (pathStr fc)
                (pathStr ⟨r0.parent, fc.name⟩) opts excl).outcome
            else none,
          cand.flatMap fun fc =>
            if env.isFile ⟨r0.parent, fc.name⟩ then
              (compare_nc_nccmp_with env (pathStr fc)
                (pathStr ⟨r0.parent, fc.name⟩) opts excl).warnings
            else [pathStr fc ++ "not found in " ++ r0.parent],
          cand.filterMap fun fc =>
            if env.isFile ⟨r0.parent, fc.name⟩ then
              some (compare_nc_nccmp_with env (pathStr fc)
                (pathStr ⟨r0.parent, fc.name⟩) opts excl).command
            else none⟩ ∧
    (cand.filterMap fun fc =>
        if env.isFile ⟨r0.parent, fc.name⟩ then
          some (compare_nc_nccmp_with env (pathStr fc)
            (pathStr ⟨r0.parent, fc.name⟩) opts excl).outcome
        else none).length ≤ cand.length :=
  ⟨congrArg Except.ok (compare_files_loop_eq env opts excl r0.parent cand),
   List.length_filterMap_le _ _⟩

/-- Claim C8: `diff_namelist` is order-insensitive — namelist files whose
parses carry the same group names in the same positions with per-group
block lists that are permutations of one another (repeated blocks
reordered) produce an identical diff — and the diff is a plain nested
mapping. -/
theorem C8_diff_namelist_order_insensitive (f1 f1' f2 f2' : NamelistFile)
    (h1 : GroupwisePerm (readNamelist f1) (readNamelist f1'))
    (h2 : GroupwisePerm (readNamelist f2) (readNamelist f2')) :
    diff_namelist f1 f2 = diff_namelist f1' f2' :=
  deepDiff_congr h1 h2

/-- A concrete instance of C8: swapping the two `g` blocks of a namelist
file leaves its diff against another file unchanged. -/
theorem C8_witness : diff_namelist nmlW1 nmlW2 = diff_namelist nmlW1r nmlW2 :=
  C8_diff_namelist_order_insensitive nmlW1 nmlW1r nmlW2 nmlW2
    (show GroupwisePerm [("g", [blockW1, blockW2])] [("g", [blockW2, blockW1])] from
      .cons ⟨rfl, List.Perm.swap blockW2 blockW1 []⟩ .nil)
    (show GroupwisePerm [("g", [blockW1])] [("g", [blockW1])] from
      .cons ⟨rfl, List.Perm.refl _⟩ .nil)

lemma xtoken_mem_nccmpCommand (a b : String) (opts : List String)
    (vs : List String) :
    ("-x " ++ String.intercalate "," vs) ∈ nccmpCommand a b opts (some vs) := by
  rw [nccmpCommand_eq]
  simp

/-- Claim C9: without a caller-supplied `exclude_vars`, `compare_ncfiles`
and `RestartDiffs` exclude the fixed nine-variable list from every
comparison — each executed command line carries the corresponding `-x`
token — whereas a direct `compare_nc_nccmp` call defaults to excluding
nothing (`exclude_vars=None`). -/
theorem C9_default_exclude_vars (env : Env) (cand rfiles : List NcPath)
    (cr rr : WrfHydroRun) (d : RestartDiffs) (res : CompareFilesRet)
    (candidate_nc reference_nc : String) :
    defaultExcludeVars =
      ["ACMELT", "ACSNOW", "SFCRUNOFF", "UDRUNOFF", "ACCPRCP",
       "ACCECAN", "ACCEDIR", "ACCETRAN", "qstrmvolrt"] ∧
    (compare_ncfiles env cand rfiles = .ok res →
      ∀ cmd ∈ res.commands,
        ("-x " ++ String.intercalate "," defaultExcludeVars) ∈ cmd) ∧
    (mkRestartDiffs env cr rr = .ok d →
      ∀ cmd ∈ d.commands,
        ("-x " ++ String.intercalate "," defaultExcludeVars) ∈ cmd) ∧
    compare_nc_nccmp env candidate_nc reference_nc =
      compare_nc_nccmp_with env candidate_nc reference_nc defaultNccmpOptions none := by
  refine ⟨rfl, ?_, ?_, rfl⟩
  · intro h cmd hc
    rcases rfiles with _ | ⟨r0, rest⟩
    · exact absurd h (by simp [compare_ncfiles, compare_ncfiles_with])
    · have hres : res = compare_files_loop env defaultNccmpOptions
          (some defaultExcludeVars) r0.parent cand :=
        (Except.ok.inj
          (h : Except.ok (compare_files_loop env defaultNccmpOptions
            (some defaultExcludeVars) r0.parent cand) = Except.ok res)).symm
      subst hres
      obtain ⟨a, b, rfl⟩ := commands_mem_nccmpCommand hc
      exact xtoken_mem_nccmpCommand a b defaultNccmpOptions defaultExcludeVars
  · intro h cmd hc
    have hd : d = restartDiffsSpec env cr rr defaultNccmpOptions (some defaultExcludeVars) :=
      (Except.ok.inj ((mkRestartDiffs_with_eq env cr rr defaultNccmpOptions
        (some defaultExcludeVars)).symm.trans h)).symm
    subst hd
    simp only [restartDiffsSpec, List.mem_append] at hc
    rcases hc with (hc | hc) | hc <;>
      obtain ⟨a, b, rfl⟩ := cmdEntry_mem hc <;>
      exact xtoken_mem_nccmpCommand a b defaultNccmpOptions defaultExcludeVars

/-- A concrete instance of C9: the command built for a matched candidate
under the default configuration carries the `-x` token for the nine
default excluded variables. -/
theorem C9_witness :
    ("-x " ++ String.intercalate "," defaultExcludeVars) ∈
      nccmpCommand (pathStr pW) (pathStr pW) defaultNccmpOptions
        (some defaultExcludeVars) :=
  (C9_default_exclude_vars envZ [pW] [pW] runW runW
      (restartDiffsSpec envZ runW runW defaultNccmpOptions (some defaultExcludeVars))
      (compare_files_loop envZ defaultNccmpOptions (some defaultExcludeVars)
        pW.parent [pW])
      "a" "b").2.1 rfl
    (nccmpCommand (pathStr pW) (pathStr pW) defaultNccmpOptions
      (some defaultExcludeVars))
    (by decide)

lemma categoryOutput_matches_compare {env : Env} {opts : List String}
    {excl : Option (List String)} {cf rf : List NcPath}
    (hc : cf ≠ []) (hr : rf ≠ []) :
    (compare_ncfiles_with env cf rf opts excl).toOption =
      categoryOutput env opts excl cf rf := by
  rcases cf with _ | ⟨c0, ct⟩
  · exact absurd rfl hc
  rcases rf with _ | ⟨r0, rt⟩
  · exact absurd rfl hr
  rfl

lemma categoryOutput_none {env : Env} {opts : List String}
    {excl : Option (List String)} {cf rf : List NcPath}
    (h : cf = [] ∨ rf = []) :
    categoryOutput env opts excl cf rf = none := by
  rcases h with rfl | rfl
  · rfl
  · rcases cf with _ | ⟨c0, ct⟩ <;> rfl

lemma countNonNone_le (l : List Outcome) : countNonNone l ≤ l.length :=
  List.length_filter_le _ _

lemma spec_lookup_hydro (env : Env) (c r : WrfHydroRun)
    (opts : List String) (excl : Option (List String)) :
    (restartDiffsSpec env c r opts excl).diff_counts.lookup "hydro" =
      (categoryOutput env opts excl c.restart_hydro r.restart_hydro).map
        fun res => countNonNone res.output_list := by
  rcases hh : categoryOutput env opts excl c.restart_hydro r.restart_hydro with _ | hres <;>
    rcases hl : categoryOutput env opts excl c.restart_lsm r.restart_lsm with _ | lres <;>
      rcases hn : categoryOutput env opts excl c.restart_nudging r.restart_nudging with _ | nres <;>
        simp [restartDiffsSpec, hh, hl, hn, countEntry, List.lookup]

lemma spec_lookup_lsm (env : Env) (c r : WrfHydroRun)
    (opts : List String) (excl : Option (List String)) :
    (restartDiffsSpec env c r opts excl).diff_counts.lookup "lsm" =
      (categoryOutput env opts excl c.restart_lsm r.restart_lsm).map
        fun res => countNonNone res.output_list := by
  rcases hh : categoryOutput env opts excl c.restart_hydro r.restart_hydro with _ | hres <;>
    rcases hl : categoryOutput env opts excl c.restart_lsm r.restart_lsm with _ | lres <;>
      rcases hn : categoryOutput env opts excl c.restart_nudging r.restart_nudging with _ | nres <;>
        simp [restartDiffsSpec, hh, hl, hn, countEntry, List.lookup]

lemma spec_lookup_nudging (env : Env) (c r : WrfHydroRun)
    (opts : List String) (excl : Option (List String)) :
    (restartDiffsSpec env c r opts excl).diff_counts.lookup "nudging" =
      (categoryOutput env opts excl c.restart_nudging r.restart_nudging).map
        fun res => countNonNone res.output_list := by
  rcases hh : categoryOutput env opts excl c.restart_hydro r.restart_hydro with _ | hres <;>
    rcases hl : categoryOutput env opts excl c.restart_lsm r.restart_lsm with _ | lres <;>
      rcases hn : categoryOutput env opts excl c.restart_nudging r.restart_nudging with _ | nres <;>
        simp [restartDiffsSpec, hh, hl, hn, countEntry, List.lookup]

lemma spec_hydro_field (env : Env) (c r : WrfHydroRun)
    (opts : List String) (excl : Option (List String)) :
    (restartDiffsSpec env c r opts excl).hydro =
      (categoryOutput env opts excl c.restart_hydro r.restart_hydro).map
        CompareFilesRet.output_list := rfl

lemma spec_lsm_field (env : Env) (c r : WrfHydroRun)
    (opts : List String) (excl : Option (List String)) :
    (restartDiffsSpec env c r opts excl).lsm =
      (categoryOutput env opts excl c.restart_lsm r.restart_lsm).map
        CompareFilesRet.output_list := rfl

lemma spec_nudging_field (env : Env) (c r : WrfHydroRun)
    (opts : List String) (excl : Option (List String)) :
    (restartDiffsSpec env c r opts excl).nudging =
      (categoryOutput env opts excl c.restart_nudging r.restart_nudging).map
        CompareFilesRet.output_list := rfl

/-- Claim C1: for every category that was compared (both collections
non-empty), the value stored under that category in `diff_counts` equals
the number of non-null entries of the result sequence that
`compare_ncfiles` produced for it, which is also the sequence stored in
the category's field. -/
theorem C1_diff_counts_match (env : Env) (c r : WrfHydroRun)
    (opts : List String) (excl : Option (List String)) (d : RestartDiffs)
    (h : mkRestartDiffs_with env c r opts excl = .ok d) :
    (c.restart_hydro ≠ [] → r.restart_hydro ≠ [] →
      d.hydro = (compare_ncfiles_with env c.restart_hydro r.restart_hydro opts
          excl).toOption.map CompareFilesRet.output_list ∧
      d.diff_counts.lookup "hydro" =
        (compare_ncfiles_with env c.restart_hydro r.restart_hydro opts
          excl).toOption.map fun res => countNonNone res.output_list) ∧
    (c.restart_lsm ≠ [] → r.restart_lsm ≠ [] →
      d.lsm = (compare_ncfiles_with env c.restart_lsm r.restart_lsm opts
          excl).toOption.map CompareFilesRet.output_list ∧
      d.diff_counts.lookup "lsm" =
        (compare_ncfiles_with env c.restart_lsm r.restart_lsm opts
          excl).toOption.map fun res => countNonNone res.output_list) ∧
    (c.restart_nudging ≠ [] → r.restart_nudging ≠ [] →
      d.nudging = (compare_ncfiles_with env c.restart_nudging r.restart_nudging opts
          excl).toOption.map CompareFilesRet.output_list ∧
      d.diff_counts.lookup "nudging" =
        (compare_ncfiles_with env c.restart_nudging r.restart_nudging opts
          excl).toOption.map fun res => countNonNone res.output_list) := by
  have hd : d = restartDiffsSpec env c r opts excl :=
    (Except.ok.inj ((mkRestartDiffs_with_eq env c r opts excl).symm.trans h)).symm
  subst hd
  refine ⟨fun hc hr => ⟨?_, ?_⟩, fun hc hr => ⟨?_, ?_⟩, fun hc hr => ⟨?_, ?_⟩⟩
  · rw [spec_hydro_field, categoryOutput_matches_compare hc hr]
  · rw [spec_lookup_hydro, categoryOutput_matches_compare hc hr]
  · rw [spec_lsm_field, categoryOutput_matches_compare hc hr]
  · rw [spec_lookup_lsm, categoryOutput_matches_compare hc hr]
  · rw [spec_nudging_field, categoryOutput_matches_compare hc hr]
  · rw [spec_lookup_nudging, categoryOutput_matches_compare hc hr]

/-- A concrete instance of C1: with a one-file hydro category on both
sides, the stored sequence and count agree with `compare_ncfiles`. -/
theorem C1_witness :
    (restartDiffsSpec envZ runW runW defaultNccmpOptions
        (some defaultExcludeVars)).hydro =
      (compare_ncfiles_with envZ runW.restart_hydro runW.restart_hydro
        defaultNccmpOptions (some defaultExcludeVars)).toOption.map
          CompareFilesRet.output_list ∧
    (restartDiffsSpec envZ runW runW defaultNccmpOptions
        (some defaultExcludeVars)).diff_counts.lookup "hydro" =
      (compare_ncfiles_with envZ runW.restart_hydro runW.restart_hydro
        defaultNccmpOptions (some defaultExcludeVars)).toOption.map
          fun res => countNonNone res.output_list :=
  (C1_diff_counts_match envZ runW runW defaultNccmpOptions
      (some defaultExcludeVars) _
      (mkRestartDiffs_with_eq envZ runW runW defaultNccmpOptions
        (some defaultExcludeVars))).1
    (by decide) (by decide)

/-- Claim C4: a category whose candidate or reference collection is empty
is skipped entirely: its field stays `None`, `diff_counts` gets no entry
for it, and a warning naming the empty collections is emitted. -/
theorem C4_empty_category_skipped (env : Env) (c r : WrfHydroRun)
    (opts : List String) (excl : Option (List String)) (d : RestartDiffs)
    (h : mkRestartDiffs_with env c r opts excl = .ok d) :
    (c.restart_hydro = [] ∨ r.restart_hydro = [] →
      d.hydro = none ∧ d.diff_counts.lookup "hydro" = none ∧
        hydroEmptyWarning ∈ d.warnings) ∧
    (c.restart_lsm = [] ∨ r.restart_lsm = [] →
      d.lsm = none ∧ d.diff_counts.lookup "lsm" = none ∧
        lsmEmptyWarning ∈ d.warnings) ∧
    (c.restart_nudging = [] ∨ r.restart_nudging = [] →
      d.nudging = none ∧ d.diff_counts.lookup "nudging" = none ∧
        nudgingEmptyWarning ∈ d.warnings) := by
  have hd : d = restartDiffsSpec env c r opts excl :=
    (Except.ok.inj ((mkRestartDiffs_with_eq env c r opts excl).symm.trans h)).symm
  subst hd
  refine ⟨fun he => ⟨?_, ?_, ?_⟩, fun he => ⟨?_, ?_, ?_⟩, fun he => ⟨?_, ?_, ?_⟩⟩
  · rw [spec_hydro_field, categoryOutput_none he]; rfl
  · rw [spec_lookup_hydro, categoryOutput_none he]; rfl
  · simp [restartDiffsSpec, categoryOutput_none he, warnEntry]
  · rw [spec_lsm_field, categoryOutput_none he]; rfl
  · rw [spec_lookup_lsm, categoryOutput_none he]; rfl
  · simp [restartDiffsSpec, categoryOutput_none he, warnEntry]
  · rw [spec_nudging_field, categoryOutput_none he]; rfl
  · rw [spec_lookup_nudging, categoryOutput_none he]; rfl
  · simp [restartDiffsSpec, categoryOutput_none he, warnEntry]

/-- A concrete instance of C4: with both hydro collections empty, the
hydro field stays `None`, `diff_counts` has no hydro entry, and the
hydro warning is emitted. -/
theorem C4_witness :
    (restartDiffsSpec envZ runE runE defaultNccmpOptions
        (some defaultExcludeVars)).hydro = none ∧
    (restartDiffsSpec envZ runE runE defaultNccmpOptions
        (some defaultExcludeVars)).diff_counts.lookup "hydro" = none ∧
    hydroEmptyWarning ∈ (restartDiffsSpec envZ runE runE defaultNccmpOptions
        (some defaultExcludeVars)).warnings :=
  (C4_empty_category_skipped envZ runE runE defaultNccmpOptions
      (some defaultExcludeVars) _
      (mkRestartDiffs_with_eq envZ runE runE defaultNccmpOptions
        (some defaultExcludeVars))).1 (Or.inl rfl)

/-- Claim C10: after `RestartDiffs` construction, `diff_counts` only ever
holds the keys `hydro`, `lsm` and `nudging`; a key is present exactly when
the matching attribute is non-`None`, its value is the non-null count of
that attribute's result list, and it never exceeds that list's length. -/
theorem C10_diff_counts_invariant (env : Env) (c r : WrfHydroRun)
    (opts : List String) (excl : Option (List String)) (d : RestartDiffs)
    (h : mkRestartDiffs_with env c r opts excl = .ok d) :
    (∀ p ∈ d.diff_counts, p.1 = "hydro" ∨ p.1 = "lsm" ∨ p.1 = "nudging") ∧
    (∀ n, d.diff_counts.lookup "hydro" = some n →
      ∃ l, d.hydro = some l ∧ n = countNonNone l ∧ n ≤ l.length) ∧
    (d.diff_counts.lookup "hydro" = none → d.hydro = none) ∧
    (∀ n, d.diff_counts.lookup "lsm" = some n →
      ∃ l, d.lsm = some l ∧ n = countNonNone l ∧ n ≤ l.length) ∧
    (d.diff_counts.lookup "lsm" = none → d.lsm = none) ∧
    (∀ n, d.diff_counts.lookup "nudging" = some n →
      ∃ l, d.nudging = some l ∧ n = countNonNone l ∧ n ≤ l.length) ∧
    (d.diff_counts.lookup "nudging" = none → d.nudging = none) := by
  have hd : d = restartDiffsSpec env c r opts excl :=
    (Except.ok.inj ((mkRestartDiffs_with_eq env c r opts excl).symm.trans h)).symm
  subst hd
  refine ⟨?_, ?_, ?_, ?_, ?_, ?_, ?_⟩
  · intro p hp
    rcases hh : categoryOutput env opts excl c.restart_hydro r.restart_hydro with _ | hres <;>
      rcases hl : categoryOutput env opts excl c.restart_lsm r.restart_lsm with _ | lres <;>
        rcases hn : categoryOutput env opts excl c.restart_nudging r.restart_nudging with _ | nres <;>
          simp [restartDiffsSpec, hh, hl, hn, countEntry] at hp <;> aesop
  · intro n hn
    rw [spec_lookup_hydro] at hn
    rcases hh : categoryOutput env opts excl c.restart_hydro r.restart_hydro with _ | hres <;>
      rw [hh] at hn
    · exact absurd hn (by simp)
    · refine ⟨hres.output_list, by rw [spec_hydro_field, hh]; rfl, ?_, ?_⟩
      · simpa using hn.symm
      · have := countNonNone_le hres.output_list
        have hv : n = countNonNone hres.output_list := by simpa using hn.symm
        omega
  · intro hn
    rw [spec_lookup_hydro] at hn
    rw [spec_hydro_field]
    rcases hh : categoryOutput env opts excl c.restart_hydro r.restart_hydro with _ | hres
    · rfl
    · rw [hh] at hn; simp at hn
  · intro n hn
    rw [spec_lookup_lsm] at hn
    rcases hh : categoryOutput env opts excl c.restart_lsm r.restart_lsm with _ | lres <;>
      rw [hh] at hn
    · exact absurd hn (by simp)
    · refine ⟨lres.output_list, by rw [spec_lsm_field, hh]; rfl, ?_, ?_⟩
      · simpa using hn.symm
      · have := countNonNone_le lres.output_list
        have hv : n = countNonNone lres.output_list := by simpa using hn.symm
        omega
  · intro hn
    rw [spec_lookup_lsm] at hn
    rw [spec_lsm_field]
    rcases hh : categoryOutput env opts excl c.restart_lsm r.restart_lsm with _ | lres
    · rfl
    · rw [hh] at hn; simp at hn
  · intro n hn
    rw [spec_lookup_nudging] at hn
    rcases hh : categoryOutput env opts excl c.restart_nudging r.restart_nudging with _ | nres <;>
      rw [hh] at hn
    · exact absurd hn (by simp)
    · refine ⟨nres.output_list, by rw [spec_nudging_field, hh]; rfl, ?_, ?_⟩
      · simpa using hn.symm
      · have := countNonNone_le nres.output_list
        have hv : n = countNonNone nres.output_list := by simpa using hn.symm
        omega
  · intro hn
    rw [spec_lookup_nudging] at hn
    rw [spec_nudging_field]
    rcases hh : categoryOutput env opts excl c.restart_nudging r.restart_nudging with _ | nres
    · rfl
    · rw [hh] at hn; simp at hn

/-- A concrete instance of C10: with the lsm category skipped, no `lsm`
key appears and the `lsm` attribute stays `None`. -/
theorem C10_witness :
    (restartDiffsSpec envZ runW runW defaultNccmpOptions
        (some defaultExcludeVars)).lsm = none :=
  (C10_diff_counts_invariant envZ runW runW defaultNccmpOptions
      (some defaultExcludeVars) _
      (mkRestartDiffs_with_eq envZ runW runW defaultNccmpOptions
        (some defaultExcludeVars))).2.2.2.2.1 (by decide)

end Wrfhydropy
